import Mathlib

/-!
Verification of the behaviour of git-repo-manager.py, a GitHub repository
synchronisation script.  Shell-visible behaviour is modelled as pure
functions over character lists; the sync engine is modelled as a function
producing the list of commands it issues (an event trace) together with a
boolean that is true exactly when the process would finish without calling
sys.exit with a non-zero status.
-/

/-- Strings from the script are modelled as lists of characters, so that
substring and splitting operations can be reasoned about by induction. -/
abbrev Str := List Char

/-- Python str.strip: remove leading and trailing whitespace. -/
def pystrip (s : Str) : Str :=
  ((s.dropWhile Char.isWhitespace).reverse.dropWhile Char.isWhitespace).reverse

/-- Python str.lower, character by character. -/
def pylower (s : Str) : Str := s.map Char.toLower

/-- needle is a leading segment of the haystack. -/
def leadsWith : Str → Str → Bool
  | [], _ => true
  | _ :: _, [] => false
  | a :: as, b :: bs => a == b && leadsWith as bs

/-- Python substring containment: the first argument occurs contiguously
inside the second (the `in` operator on strings). -/
def occursIn (needle : Str) : Str → Bool
  | [] => needle.isEmpty
  | c :: rest => leadsWith needle (c :: rest) || occursIn needle rest

/-- Helper for pysplit: acc holds the current word reversed. -/
def pysplitAux : Str → Str → List Str
  | acc, [] => if acc.isEmpty then [] else [acc.reverse]
  | acc, c :: cs =>
    if c.isWhitespace then
      if acc.isEmpty then pysplitAux [] cs else acc.reverse :: pysplitAux [] cs
    else pysplitAux (c :: acc) cs

/-- Python str.split with no separator: split on runs of whitespace,
discarding empty words. -/
def pysplit (s : Str) : List Str := pysplitAux [] s

/-- Python s.split on a newline separator: str.split of one character. -/
def splitOnNl : Str → List Str
  | [] => [[]]
  | c :: rest =>
    if c = '\n' then [] :: splitOnNl rest
    else
      match splitOnNl rest with
      | [] => [[c]]
      | w :: ws => (c :: w) :: ws

/-- Join lines with a newline separator; inverse image of splitOnNl used to
describe well-formed listing output. -/
def joinNl : List Str → Str
  | [] => []
  | [l] => l
  | l :: ls => l ++ '\n' :: joinNl ls

/-! ### check_ssh_access (src/git-repo-manager.py lines 122-133) -/

/-- Outcome of the SSH identity probe check: either the check passes and the
script continues, or it prints the captured text and calls sys.exit(1). -/
inductive SshOutcome where
  | pass
  | failExit (printed : Str)
deriving DecidableEq, Repr

/-- First accepted substring in check_ssh_access. -/
def sshOkSub1 : Str := "successfully authenticated".toList

/-- Second accepted substring in check_ssh_access. -/
def sshOkSub2 : Str := "does not provide shell access".toList

/-- check_ssh_access: ssh_output = (result.stdout + result.stderr).strip();
pass when either accepted substring occurs, otherwise print ssh_output and
exit 1. -/
def check_ssh_access (stdoutTxt stderrTxt : Str) : SshOutcome :=
  if occursIn sshOkSub1 (pystrip (stdoutTxt ++ stderrTxt)) ||
      occursIn sshOkSub2 (pystrip (stdoutTxt ++ stderrTxt)) then
    .pass
  else
    .failExit (pystrip (stdoutTxt ++ stderrTxt))

/-! ### detect_os and install_package (lines 58-100) -/

/-- detect_os: dispatch on sys.platform and on which package-manager
binaries exist on the filesystem (apt, dnf, yum under /usr/bin). -/
def detect_os (platform : Str) (hasApt hasDnf hasYum : Bool) : Str :=
  if leadsWith "linux".toList platform then
    if hasApt then "linux-apt".toList
    else if hasDnf then "linux-dnf".toList
    else if hasYum then "linux-yum".toList
    else "linux-unknown".toList
  else if platform = "darwin".toList then "macos".toList
  else if platform = "win32".toList || platform = "cygwin".toList then
    "windows".toList
  else "unknown".toList

/-- The seven categories the detector may return. -/
def sevenCategories : List Str :=
  ["linux-apt".toList, "linux-dnf".toList, "linux-yum".toList,
   "linux-unknown".toList, "macos".toList, "windows".toList,
   "unknown".toList]

/-- install_package, modelled as the list of shell commands it issues and
whether it finishes without sys.exit(1).  The wingetOk argument models the
exit status of the winget invocation; the source never consults it, because
run_command returns None when capture_output is false, so the
`run_command(winget) or run_command(choco)` expression always evaluates its
right operand. -/
def install_package (platform : Str) (hasApt hasDnf hasYum : Bool)
    (package : Str) (_wingetOk : Bool) : List Str × Bool :=
  let os_type := detect_os platform hasApt hasDnf hasYum
  if os_type = "linux-apt".toList then
    (["sudo apt update -y && sudo apt install -y ".toList ++ package], true)
  else if os_type = "linux-dnf".toList then
    (["sudo dnf install -y ".toList ++ package], true)
  else if os_type = "linux-yum".toList then
    (["sudo yum install -y ".toList ++ package], true)
  else if os_type = "macos".toList then
    (["brew install ".toList ++ package], true)
  else if os_type = "windows".toList then
    if package = "git".toList then
      (["winget install --id Git.Git --silent".toList,
        "choco install git -y".toList], true)
    else if package = "gh".toList then
      (["winget install --id GitHub.cli --silent".toList,
        "choco install gh -y".toList], true)
    else ([], true)
  else ([], false)

/-- Install command template per detector category, written from the spec
wording: each supported category maps to one fixed template (on windows the
primary installer and its fallback).  Used to state that install_package
factors through the detected category. -/
def installTemplate (osType : Str) (package : Str) : List Str × Bool :=
  if osType = "linux-apt".toList then
    (["sudo apt update -y && sudo apt install -y ".toList ++ package], true)
  else if osType = "linux-dnf".toList then
    (["sudo dnf install -y ".toList ++ package], true)
  else if osType = "linux-yum".toList then
    (["sudo yum install -y ".toList ++ package], true)
  else if osType = "macos".toList then
    (["brew install ".toList ++ package], true)
  else if osType = "windows".toList then
    if package = "git".toList then
      (["winget install --id Git.Git --silent".toList,
        "choco install git -y".toList], true)
    else if package = "gh".toList then
      (["winget install --id GitHub.cli --silent".toList,
        "choco install gh -y".toList], true)
    else ([], true)
  else ([], false)

/-! ### fetch_repos (lines 144-153) -/

/-- fetch_repos: run_command with capture_output returns stdout.strip();
an empty (falsy) result returns the empty list, otherwise each line of the
data split on newlines is stripped and whitespace-split. -/
def fetch_repos (stdoutTxt : Str) : List (List Str) :=
  if (pystrip stdoutTxt).isEmpty then []
  else
    (splitOnNl (pystrip stdoutTxt)).map (fun line => pysplit (pystrip line))

/-! ### clone_or_update_repos (lines 155-189) -/

/-- Environment a single repository presents to the sync engine: the
filesystem checks on its local path and the outputs and exit statuses of
the git commands the engine may run there. -/
structure RepoEnv where
  /-- os.path.exists(repo_path) -/
  pathExists : Bool
  /-- os.path.isdir(repo_path) -/
  isDir : Bool
  /-- os.path.exists(repo_path/.git) -/
  hasDotGit : Bool
  /-- stdout of git status --porcelain -/
  statusOut : Str
  /-- the line the operator types at the commit prompt -/
  answer : Str
  /-- whether git push exits with status 0 -/
  pushOk : Bool
  /-- stdout of git rev-parse --abbrev-ref HEAD -/
  branchOut : Str
  /-- whether git pull exits with status 0 -/
  pullOk : Bool
  /-- whether git clone exits with status 0 (never consulted: the clone is
  run without check) -/
  cloneOk : Bool
deriving Repr

/-- Commands and prompts the sync engine emits, in order. -/
inductive Event where
  | configPullFF
  | gitStatus
  | promptCommit (name : Str)
  | gitAdd
  | gitCommit (name : Str)
  | gitPush
  | branchResolve
  | gitPull (branch : Str)
  | gitClone (url : Str) (path : Str)
deriving DecidableEq, Repr

/-- CLONE_DIR = os.path.expanduser of the home git directory; kept
symbolic. -/
def CLONE_DIR : Str := "~/git".toList

/-- repo_path = os.path.join(CLONE_DIR, repo_name). -/
def repoPath (name : Str) : Str := CLONE_DIR ++ '/' :: name

/-- Lines 170-179: check for uncommitted changes, prompt, and on a "y"
answer stage, commit and push; the push runs with check=True so a failing
push terminates the process (second component false). -/
def commitPhase (name : Str) (env : RepoEnv) : List Event × Bool :=
  if (pystrip env.statusOut).isEmpty then ([], true)
  else if pylower (pystrip env.answer) = ['y'] then
    ([.promptCommit name, .gitAdd, .gitCommit name, .gitPush], env.pushOk)
  else ([.promptCommit name], true)

/-- The error marker checked against the branch-resolution output. -/
def fatalSub : Str := "fatal".toList

/-- Lines 181-183: resolve the current branch; pull (check=True) only when
"fatal" does not occur in the captured output. -/
def pullPhase (env : RepoEnv) : List Event × Bool :=
  if occursIn fatalSub (pystrip env.branchOut) then
    ([.branchResolve], true)
  else ([.branchResolve, .gitPull (pystrip env.branchOut)], env.pullOk)

/-- One iteration of the loop in clone_or_update_repos for the record
(name, url): update an existing clone, or issue a single unchecked clone
command. -/
def processRepo (name url : Str) (env : RepoEnv) : List Event × Bool :=
  if env.pathExists && env.isDir && env.hasDotGit then
    if (commitPhase name env).2 then
      (Event.gitStatus :: (commitPhase name env).1 ++ (pullPhase env).1,
        (pullPhase env).2)
    else (Event.gitStatus :: (commitPhase name env).1, false)
  else ([Event.gitClone url (repoPath name)], true)

/-- The per-repository loop: process records in order, stopping as soon as
one iteration terminates the process. -/
def syncLoop : List (Str × Str × RepoEnv) → List Event × Bool
  | [] => ([], true)
  | (name, url, env) :: rest =>
    if (processRepo name url env).2 then
      ((processRepo name url env).1 ++ (syncLoop rest).1, (syncLoop rest).2)
    else ((processRepo name url env).1, false)

/-- clone_or_update_repos: configure the fast-forward-only pull strategy
once, then run the loop. -/
def clone_or_update_repos (rs : List (Str × Str × RepoEnv)) :
    List Event × Bool :=
  (Event.configPullFF :: (syncLoop rs).1, (syncLoop rs).2)

/-- Unpack the parsed listing lines as the loop header
`for repo_name, repo_url in repos` does: any line whose split is not
exactly two words raises and crashes the process. -/
def unpackRepos : List (List Str) → Option (List (Str × Str))
  | [] => some []
  | [n, u] :: rest => (unpackRepos rest).map (fun ps => (n, u) :: ps)
  | _ => none

/-- Tail of main (lines 206-210): fetch, and sync only when the repo list
is non-empty; an empty list prints a message and returns normally, so the
process exits with status 0 (true). -/
def main_model (stdoutTxt : Str) (envs : List RepoEnv) : Bool :=
  if (fetch_repos stdoutTxt).isEmpty then true
  else
    match unpackRepos (fetch_repos stdoutTxt) with
    | none => false
    | some pairs =>
      (clone_or_update_repos
        (pairs.zip envs |>.map (fun pe => (pe.1.1, pe.1.2, pe.2)))).2

/-! ### Helper lemmas about the string operations -/

theorem leadsWith_iff (n s : Str) : leadsWith n s = true ↔ ∃ t, s = n ++ t := by
  induction n generalizing s with
  | nil => simp [leadsWith]
  | cons a as ih =>
    cases s with
    | nil => simp [leadsWith]
    | cons b bs =>
      simp only [leadsWith, Bool.and_eq_true, beq_iff_eq, ih, List.cons_append,
        List.cons.injEq]
      constructor
      · rintro ⟨rfl, t, rfl⟩; exact ⟨t, rfl, rfl⟩
      · rintro ⟨t, rfl, rfl⟩; exact ⟨rfl, t, rfl⟩

theorem occursIn_iff (n s : Str) :
    occursIn n s = true ↔ ∃ l t, s = l ++ n ++ t := by
  induction s with
  | nil =>
    simp only [occursIn, List.isEmpty_iff]
    constructor
    · rintro rfl; exact ⟨[], [], rfl⟩
    · rintro ⟨l, t, h⟩
      rcases List.append_eq_nil.mp ((List.append_eq_nil.mp h.symm).1) with ⟨-, h2⟩
      exact h2
  | cons c cs ih =>
    simp only [occursIn, Bool.or_eq_true, leadsWith_iff, ih]
    constructor
    · rintro (⟨t, h⟩ | ⟨l, t, rfl⟩)
      · exact ⟨[], t, by simpa using h⟩
      · exact ⟨c :: l, t, rfl⟩
    · rintro ⟨l, t, h⟩
      cases l with
      | nil => exact Or.inl ⟨t, by simpa using h⟩
      | cons x xs =>
        simp only [List.cons_append, List.cons.injEq] at h
        exact Or.inr ⟨xs, t, h.2⟩

theorem occursIn_reverse (n s : Str) :
    occursIn n.reverse s.reverse = occursIn n s := by
  have h : (occursIn n.reverse s.reverse = true) ↔ (occursIn n s = true) := by
    simp only [occursIn_iff]
    constructor
    · rintro ⟨l, t, h⟩
      refine ⟨t.reverse, l.reverse, ?_⟩
      have := congrArg List.reverse h
      simpa [List.append_assoc] using this
    · rintro ⟨l, t, rfl⟩
      exact ⟨t.reverse, l.reverse, by simp [List.append_assoc]⟩
  cases hb : occursIn n.reverse s.reverse <;> cases hc : occursIn n s <;>
    simp_all

theorem occursIn_nil_needle (s : Str) : occursIn [] s = true := by
  induction s with
  | nil => rfl
  | cons c cs ih => simp [occursIn, leadsWith]

theorem occursIn_dropWhileWs (n s : Str)
    (hh : ∀ c ∈ n.head?, c.isWhitespace = false) :
    occursIn n (s.dropWhile Char.isWhitespace) = occursIn n s := by
  induction s with
  | nil => rfl
  | cons c cs ih =>
    by_cases hc : c.isWhitespace
    · rw [List.dropWhile_cons_of_pos (by simpa using hc)]
      rw [ih]
      cases n with
      | nil => simp [occursIn_nil_needle]
      | cons a as =>
        have ha : a.isWhitespace = false := hh a rfl
        have : leadsWith (a :: as) (c :: cs) = false := by
          simp only [leadsWith, Bool.and_eq_false_iff, beq_eq_false_iff_ne,
            ne_eq]
          exact Or.inl (fun h => by rw [h] at ha; rw [hc] at ha; cases ha)
        simp [occursIn, this]
    · rw [List.dropWhile_cons_of_neg (by simpa using hc)]

theorem occursIn_pystrip (n s : Str)
    (hh : ∀ c ∈ n.head?, c.isWhitespace = false)
    (hl : ∀ c ∈ n.getLast?, c.isWhitespace = false) :
    occursIn n (pystrip s) = occursIn n s := by
  unfold pystrip
  rw [occursIn_reverse n ((s.dropWhile Char.isWhitespace).reverse.dropWhile
    Char.isWhitespace).reverse |>.symm]
  rw [List.reverse_reverse]
  rw [occursIn_dropWhileWs n.reverse _ (by simpa using hl)]
  rw [occursIn_reverse]
  exact occursIn_dropWhileWs n s hh

theorem dropWhile_eq_self_of_head (p : Char → Bool) (s : Str)
    (h : ∀ c ∈ s.head?, p c = false) : s.dropWhile p = s := by
  cases s with
  | nil => rfl
  | cons c cs =>
    have hc : p c = false := h c rfl
    simp [List.dropWhile_cons, hc]

theorem pystrip_eq_self (s : Str)
    (h1 : ∀ c ∈ s.head?, c.isWhitespace = false)
    (h2 : ∀ c ∈ s.getLast?, c.isWhitespace = false) : pystrip s = s := by
  unfold pystrip
  rw [dropWhile_eq_self_of_head _ _ h1]
  rw [dropWhile_eq_self_of_head _ _ (by simpa [List.head?_reverse] using h2)]
  exact s.reverse_reverse

theorem pysplitAux_word (w rest acc : Str)
    (hw : ∀ c ∈ w, c.isWhitespace = false) :
    pysplitAux acc (w ++ rest) = pysplitAux (w.reverse ++ acc) rest := by
  induction w generalizing acc with
  | nil => simp
  | cons c w ih =>
    have hc : c.isWhitespace = false := hw c (List.mem_cons_self c w)
    simp only [List.cons_append, pysplitAux, hc, Bool.false_eq_true,
      if_false, List.append_eq]
    rw [ih _ (fun d hd => hw d (List.mem_cons_of_mem c hd))]
    congr 1
    simp

theorem pysplitAux_single (u : Str) (hu : u ≠ [])
    (huw : ∀ c ∈ u, c.isWhitespace = false) : pysplitAux [] u = [u] := by
  have h := pysplitAux_word u [] [] huw
  rw [List.append_nil] at h
  rw [h]
  simp [pysplitAux, List.isEmpty_iff, hu]

theorem pysplit_pair (n u : Str) (hn : n ≠ []) (hu : u ≠ [])
    (hnw : ∀ c ∈ n, c.isWhitespace = false)
    (huw : ∀ c ∈ u, c.isWhitespace = false) :
    pysplit (n ++ ' ' :: u) = [n, u] := by
  unfold pysplit
  rw [pysplitAux_word n (' ' :: u) [] hnw]
  rw [List.append_nil]
  have hsp : (' ' : Char).isWhitespace = true := by decide
  have hne : n.reverse.isEmpty = false := by
    simp [List.isEmpty_iff, hn]
  simp only [pysplitAux, hsp, if_true, hne, Bool.false_eq_true, if_false,
    List.reverse_reverse]
  rw [pysplitAux_single u hu huw]

theorem splitOnNl_no_nl (l : Str) (h : '\n' ∉ l) : splitOnNl l = [l] := by
  induction l with
  | nil => rfl
  | cons c cs ih =>
    have hc : ¬(c = '\n') := fun hc => h (hc ▸ List.mem_cons_self c cs)
    have h2 := ih (fun hm => h (List.mem_cons_of_mem c hm))
    simp [splitOnNl, hc, h2]

theorem splitOnNl_append (l rest : Str) (h : '\n' ∉ l) :
    splitOnNl (l ++ '\n' :: rest) = l :: splitOnNl rest := by
  induction l with
  | nil => simp [splitOnNl]
  | cons c cs ih =>
    have hc : ¬(c = '\n') := fun hc => h (hc ▸ List.mem_cons_self c cs)
    have h2 := ih (fun hm => h (List.mem_cons_of_mem c hm))
    simp [splitOnNl, hc, h2]

theorem splitOnNl_joinNl (lines : List Str) (hne : lines ≠ [])
    (h : ∀ l ∈ lines, '\n' ∉ l) : splitOnNl (joinNl lines) = lines := by
  induction lines with
  | nil => cases hne rfl
  | cons l ls ih =>
    cases ls with
    | nil => exact splitOnNl_no_nl l (h l (List.mem_cons_self l []))
    | cons l2 ls2 =>
      rw [show joinNl (l :: l2 :: ls2) = l ++ '\n' :: joinNl (l2 :: ls2)
        from rfl]
      rw [splitOnNl_append _ _ (h l (List.mem_cons_self _ _))]
      rw [ih (by simp) (fun m hm => h m (List.mem_cons_of_mem l hm))]

theorem joinNl_ne_nil (l : Str) (ls : List Str) (hl : l ≠ []) :
    joinNl (l :: ls) ≠ [] := by
  cases ls with
  | nil => simpa [joinNl] using hl
  | cons l2 ls2 => simp [joinNl]

theorem syncLoop_append (xs ys : List (Str × Str × RepoEnv)) :
    syncLoop (xs ++ ys) =
      if (syncLoop xs).2 then
        ((syncLoop xs).1 ++ (syncLoop ys).1, (syncLoop ys).2)
      else syncLoop xs := by
  induction xs with
  | nil => simp [syncLoop]
  | cons x xs ih =>
    obtain ⟨n, u, env⟩ := x
    by_cases h : (processRepo n u env).2 = true
    · have e1 : syncLoop ((n, u, env) :: (xs ++ ys)) =
          ((processRepo n u env).1 ++ (syncLoop (xs ++ ys)).1,
            (syncLoop (xs ++ ys)).2) := by
        simp [syncLoop, h]
      have e2 : syncLoop ((n, u, env) :: xs) =
          ((processRepo n u env).1 ++ (syncLoop xs).1, (syncLoop xs).2) := by
        simp [syncLoop, h]
      rw [List.cons_append, e1, ih, e2]
      by_cases h2 : (syncLoop xs).2 = true
      · simp [h2, List.append_assoc]
      · simp only [Bool.not_eq_true] at h2
        simp [h2]
    · have e1 : syncLoop ((n, u, env) :: (xs ++ ys)) =
          ((processRepo n u env).1, false) := by
        simp [syncLoop, h]
      have e2 : syncLoop ((n, u, env) :: xs) =
          ((processRepo n u env).1, false) := by
        simp [syncLoop, h]
      rw [List.cons_append, e1, e2]
      simp

theorem mem_of_mem_getLast (l : Str) (c : Char) (h : c ∈ l.getLast?) :
    c ∈ l := by
  rcases List.mem_getLast?_eq_getLast h with ⟨hne, hc⟩
  subst hc
  exact List.getLast_mem hne

/-- The events commitPhase can emit, by case analysis. -/
theorem commitPhase_events (name : Str) (env : RepoEnv) :
    (commitPhase name env).1 = [] ∨
    (commitPhase name env).1 = [Event.promptCommit name] ∨
    (commitPhase name env).1 =
      [Event.promptCommit name, Event.gitAdd, Event.gitCommit name,
       Event.gitPush] := by
  unfold commitPhase
  split
  · exact Or.inl rfl
  · split
    · exact Or.inr (Or.inr rfl)
    · exact Or.inr (Or.inl rfl)

/-- The events pullPhase can emit, by case analysis. -/
theorem pullPhase_events (env : RepoEnv) :
    (pullPhase env).1 = [Event.branchResolve] ∨
    (pullPhase env).1 =
      [Event.branchResolve, Event.gitPull (pystrip env.branchOut)] := by
  unfold pullPhase
  split
  · exact Or.inl rfl
  · exact Or.inr rfl

/-! ### The claims -/

/-- C1: the SSH identity probe passes exactly when the combined
standard-output and standard-error text of the probe contains the substring
"successfully authenticated" or the substring "does not provide shell
access" anywhere; for any other output, check_ssh_access prints the full
captured (stripped) text and exits the process with a non-zero status. -/
theorem claim_C1_ssh_probe (stdoutTxt stderrTxt : Str) :
    (check_ssh_access stdoutTxt stderrTxt = .pass ↔
      (occursIn sshOkSub1 (stdoutTxt ++ stderrTxt) = true ∨
       occursIn sshOkSub2 (stdoutTxt ++ stderrTxt) = true)) ∧
    (check_ssh_access stdoutTxt stderrTxt ≠ .pass →
      check_ssh_access stdoutTxt stderrTxt =
        .failExit (pystrip (stdoutTxt ++ stderrTxt))) := by
  have e1 : occursIn sshOkSub1 (pystrip (stdoutTxt ++ stderrTxt)) =
      occursIn sshOkSub1 (stdoutTxt ++ stderrTxt) :=
    occursIn_pystrip _ _ (by decide) (by decide)
  have e2 : occursIn sshOkSub2 (pystrip (stdoutTxt ++ stderrTxt)) =
      occursIn sshOkSub2 (stdoutTxt ++ stderrTxt) :=
    occursIn_pystrip _ _ (by decide) (by decide)
  unfold check_ssh_access
  rw [e1, e2]
  cases hb : occursIn sshOkSub1 (stdoutTxt ++ stderrTxt) <;>
    cases hc : occursIn sshOkSub2 (stdoutTxt ++ stderrTxt) <;>
      simp [hb, hc]

/-- C1 witness: a probe output with neither accepted substring leads to the
failure exit carrying the captured text. -/
theorem claim_C1_ssh_probe_witness :
    check_ssh_access "Permission denied (publickey).".toList [] =
      .failExit (pystrip ("Permission denied (publickey).".toList ++ [])) :=
  (claim_C1_ssh_probe "Permission denied (publickey).".toList []).2
    (by decide)

/-- C3: for a repository record whose local path is not an existing
directory containing a .git entry, the engine issues exactly one clone
command with the recorded url and the derived target path, finishes the
iteration successfully whatever the clone exit status is (cloneOk is
arbitrary in env), and the loop continues with the remaining records. -/
theorem claim_C3_clone_unchecked (name url : Str) (env : RepoEnv)
    (rest : List (Str × Str × RepoEnv))
    (h : (env.pathExists && env.isDir && env.hasDotGit) = false) :
    processRepo name url env = ([Event.gitClone url (repoPath name)], true) ∧
    syncLoop ((name, url, env) :: rest) =
      (Event.gitClone url (repoPath name) :: (syncLoop rest).1,
        (syncLoop rest).2) := by
  have hp : processRepo name url env =
      ([Event.gitClone url (repoPath name)], true) := by
    simp [processRepo, h]
  exact ⟨hp, by simp [syncLoop, hp]⟩

/-- C3 witness: a record with no local clone and a failing clone exit
status (cloneOk false) still produces the single clone command and lets the
loop continue to the next record. -/
theorem claim_C3_clone_unchecked_witness :
    processRepo "new-repo".toList "git@github.com:u/new-repo.git".toList
        ⟨false, false, false, [], [], true, [], true, false⟩ =
      ([Event.gitClone "git@github.com:u/new-repo.git".toList
          (repoPath "new-repo".toList)], true) ∧
    syncLoop [("new-repo".toList, "git@github.com:u/new-repo.git".toList,
        ⟨false, false, false, [], [], true, [], true, false⟩)] =
      (Event.gitClone "git@github.com:u/new-repo.git".toList
          (repoPath "new-repo".toList) :: (syncLoop []).1,
        (syncLoop []).2) :=
  claim_C3_clone_unchecked "new-repo".toList
    "git@github.com:u/new-repo.git".toList
    ⟨false, false, false, [], [], true, [], true, false⟩ [] (by decide)

/-- C4: for an existing local clone whose status query strips to empty
output, the engine runs only the status query, the branch resolution and
(for a non-fatal branch) the pull: no commit prompt, add, commit or push
command is issued. -/
theorem claim_C4_clean_tree_pull_only (name url m : Str) (env : RepoEnv)
    (hex : (env.pathExists && env.isDir && env.hasDotGit) = true)
    (hclean : pystrip env.statusOut = []) :
    processRepo name url env =
      (Event.gitStatus :: Event.branchResolve ::
        (if occursIn fatalSub (pystrip env.branchOut) = true then []
         else [Event.gitPull (pystrip env.branchOut)]),
        if occursIn fatalSub (pystrip env.branchOut) = true then true
        else env.pullOk) ∧
    Event.promptCommit m ∉ (processRepo name url env).1 ∧
    Event.gitAdd ∉ (processRepo name url env).1 ∧
    Event.gitCommit m ∉ (processRepo name url env).1 ∧
    Event.gitPush ∉ (processRepo name url env).1 := by
  have hcp : commitPhase name env = ([], true) := by
    simp [commitPhase, hclean]
  cases hb : occursIn fatalSub (pystrip env.branchOut) <;>
    simp [processRepo, hex, hcp, pullPhase, hb]

/-- C4 witness: a clean existing clone on branch main only resolves the
branch and pulls. -/
theorem claim_C4_clean_tree_pull_only_witness :
    processRepo "dotfiles".toList ['u']
        ⟨true, true, true, ['\n'], [], true, "main\n".toList, true, true⟩ =
      (Event.gitStatus :: Event.branchResolve ::
        (if occursIn fatalSub
            (pystrip ("main\n".toList : Str)) = true then []
         else [Event.gitPull (pystrip ("main\n".toList : Str))]),
        if occursIn fatalSub
            (pystrip ("main\n".toList : Str)) = true then true
        else true) ∧
    Event.promptCommit ['m'] ∉
      (processRepo "dotfiles".toList ['u']
        ⟨true, true, true, ['\n'], [], true, "main\n".toList, true, true⟩).1 ∧
    Event.gitAdd ∉
      (processRepo "dotfiles".toList ['u']
        ⟨true, true, true, ['\n'], [], true, "main\n".toList, true, true⟩).1 ∧
    Event.gitCommit ['m'] ∉
      (processRepo "dotfiles".toList ['u']
        ⟨true, true, true, ['\n'], [], true, "main\n".toList, true, true⟩).1 ∧
    Event.gitPush ∉
      (processRepo "dotfiles".toList ['u']
        ⟨true, true, true, ['\n'], [], true, "main\n".toList, true, true⟩).1 :=
  claim_C4_clean_tree_pull_only "dotfiles".toList ['u'] ['m']
    ⟨true, true, true, ['\n'], [], true, "main\n".toList, true, true⟩
    (by decide) (by decide)

/-- C10: for an existing clone, whenever the captured branch-resolution
output contains the substring "fatal" the pull command is never issued, for
any branch argument. -/
theorem claim_C10_fatal_skips_pull (name url b : Str) (env : RepoEnv)
    (hex : (env.pathExists && env.isDir && env.hasDotGit) = true)
    (hfatal : occursIn fatalSub (pystrip env.branchOut) = true) :
    Event.gitPull b ∉ (processRepo name url env).1 := by
  have hpp : pullPhase env = ([Event.branchResolve], true) := by
    simp [pullPhase, hfatal]
  rcases commitPhase_events name env with hc | hc | hc <;>
    by_cases h2 : (commitPhase name env).2 = true <;>
      simp [processRepo, hex, h2, hc, hpp]

/-- C10 witness: a repository whose current branch is literally named
fatal-fix (branch resolution succeeded) gets no pull at all. -/
theorem claim_C10_fatal_skips_pull_witness :
    Event.gitPull "fatal-fix".toList ∉
      (processRepo "repo".toList ['u']
        ⟨true, true, true, [], [], true, "fatal-fix".toList, true,
          true⟩).1 :=
  claim_C10_fatal_skips_pull "repo".toList ['u'] "fatal-fix".toList
    ⟨true, true, true, [], [], true, "fatal-fix".toList, true, true⟩
    (by decide) (by decide)

/-- C2: inside the batch loop, a non-zero exit status from the push issued
after a confirmed commit, or from the fast-forward pull, makes the whole
process exit with a non-zero status (second component false) right after
the failing repository: the trace stops with that repository and no record
after it contributes any command. -/
theorem claim_C2_hard_failure_aborts_batch
    (pre post : List (Str × Str × RepoEnv)) (name url : Str) (env : RepoEnv)
    (hpre : (syncLoop pre).2 = true)
    (hex : (env.pathExists && env.isDir && env.hasDotGit) = true)
    (hfail :
      ((pystrip env.statusOut).isEmpty = false ∧
        pylower (pystrip env.answer) = ['y'] ∧ env.pushOk = false) ∨
      ((commitPhase name env).2 = true ∧
        occursIn fatalSub (pystrip env.branchOut) = false ∧
        env.pullOk = false)) :
    (clone_or_update_repos (pre ++ (name, url, env) :: post)).2 = false ∧
    (clone_or_update_repos (pre ++ (name, url, env) :: post)).1 =
      Event.configPullFF ::
        ((syncLoop pre).1 ++ (processRepo name url env).1) := by
  have hstep : (processRepo name url env).2 = false := by
    rcases hfail with ⟨h1, h2, h3⟩ | ⟨hc, hf, hp⟩
    · have hcp : commitPhase name env =
          ([Event.promptCommit name, Event.gitAdd, Event.gitCommit name,
            Event.gitPush], env.pushOk) := by
        simp [commitPhase, h1, h2]
      simp [processRepo, hex, hcp, h3]
    · have hpp : pullPhase env =
          ([Event.branchResolve, Event.gitPull (pystrip env.branchOut)],
            env.pullOk) := by
        simp [pullPhase, hf]
      simp [processRepo, hex, hc, hpp, hp]
  have hx : syncLoop ((name, url, env) :: post) =
      ((processRepo name url env).1, false) := by
    simp [syncLoop, hstep]
  have hall : syncLoop (pre ++ (name, url, env) :: post) =
      ((syncLoop pre).1 ++ (processRepo name url env).1, false) := by
    rw [syncLoop_append, hpre, if_pos rfl, hx]
  simp [clone_or_update_repos, hall]

/-- C2 witness: one existing repository with a clean tree whose pull fails
aborts the run right after that pull. -/
theorem claim_C2_hard_failure_aborts_batch_witness :
    (clone_or_update_repos ([] ++ (['r'], ['u'],
      (⟨true, true, true, [], [], true, "main".toList, false, true⟩ :
        RepoEnv)) :: [])).2 = false ∧
    (clone_or_update_repos ([] ++ (['r'], ['u'],
      (⟨true, true, true, [], [], true, "main".toList, false, true⟩ :
        RepoEnv)) :: [])).1 =
      Event.configPullFF ::
        ((syncLoop []).1 ++ (processRepo ['r'] ['u']
          ⟨true, true, true, [], [], true, "main".toList, false, true⟩).1) :=
  claim_C2_hard_failure_aborts_batch [] [] ['r'] ['u']
    ⟨true, true, true, [], [], true, "main".toList, false, true⟩
    rfl (by decide) (Or.inr ⟨by decide, by decide, rfl⟩)

/-- C9: for a dirty existing clone, the stage/commit/push sequence runs
exactly when the operator's answer, stripped and lowercased, is the single
letter y; any other answer leaves only the prompt and the engine moves on
to branch resolution and pull. -/
theorem claim_C9_commit_gate (name url : Str) (env : RepoEnv)
    (hex : (env.pathExists && env.isDir && env.hasDotGit) = true)
    (hdirty : (pystrip env.statusOut).isEmpty = false) :
    (Event.gitAdd ∈ (processRepo name url env).1 ↔
      pylower (pystrip env.answer) = ['y']) ∧
    (pylower (pystrip env.answer) = ['y'] →
      processRepo name url env =
        (Event.gitStatus :: Event.promptCommit name :: Event.gitAdd ::
          Event.gitCommit name :: Event.gitPush ::
          (if env.pushOk = true then (pullPhase env).1 else []),
         if env.pushOk = true then (pullPhase env).2 else false)) ∧
    (pylower (pystrip env.answer) ≠ ['y'] →
      processRepo name url env =
        (Event.gitStatus :: Event.promptCommit name :: (pullPhase env).1,
          (pullPhase env).2)) := by
  by_cases hy : pylower (pystrip env.answer) = ['y']
  · have hcp : commitPhase name env =
        ([Event.promptCommit name, Event.gitAdd, Event.gitCommit name,
          Event.gitPush], env.pushOk) := by
      simp [commitPhase, hdirty, hy]
    cases hpu : env.pushOk <;>
      simp [processRepo, hex, hcp, hpu, hy]
  · have hcp : commitPhase name env = ([Event.promptCommit name], true) := by
      simp [commitPhase, hdirty, hy]
    have hnl : Event.gitAdd ∉ (pullPhase env).1 := by
      rcases pullPhase_events env with h | h <;> simp [h]
    simp [processRepo, hex, hcp, hy, hnl]

/-- C9 witness: the answer yes declines; no stage command is issued. -/
theorem claim_C9_commit_gate_witness :
    Event.gitAdd ∉
      (processRepo ['r'] ['u']
        ⟨true, true, true, " M f".toList, "yes".toList, true,
          "main".toList, true, true⟩).1 := by
  intro hmem
  have h := (claim_C9_commit_gate ['r'] ['u']
    ⟨true, true, true, " M f".toList, "yes".toList, true,
      "main".toList, true, true⟩ (by decide) (by decide)).1.mp hmem
  exact absurd h (by decide)

/-- C6: for every platform identifier and filesystem state the detector
returns exactly one of the seven categories (the list has no duplicates and
the result is always a member), and the commands install_package issues are
fully determined by the detected category and the package: install_package
factors through the per-category template. -/
theorem claim_C6_detector_categories (platform : Str)
    (hasApt hasDnf hasYum : Bool) (package : Str) (wingetOk : Bool) :
    detect_os platform hasApt hasDnf hasYum ∈ sevenCategories ∧
    sevenCategories.Nodup ∧
    install_package platform hasApt hasDnf hasYum package wingetOk =
      installTemplate (detect_os platform hasApt hasDnf hasYum) package := by
  refine ⟨?_, by decide, rfl⟩
  unfold detect_os
  repeat' split
  all_goals decide

/-- C7: code evaluation at the failing input.  On the windows platform,
installing git issues the winget command and then the choco command even
when winget succeeds (last argument true): run_command returns None when it
does not capture output, so the fallback written with `or` always runs. -/
theorem claim_C7_windows_always_runs_choco :
    (install_package "win32".toList false false false "git".toList true).1 =
      ["winget install --id Git.Git --silent".toList,
       "choco install git -y".toList] ∧
    "choco install git -y".toList ∈
      (install_package "win32".toList false false false "git".toList
        true).1 := by
  exact ⟨by decide, by decide⟩

/-- configPullFF is never emitted by a loop iteration. -/
theorem configFF_not_in_processRepo (name url : Str) (env : RepoEnv) :
    Event.configPullFF ∉ (processRepo name url env).1 := by
  rcases commitPhase_events name env with hc | hc | hc <;>
    rcases pullPhase_events env with hp | hp <;>
      by_cases h2 : (commitPhase name env).2 = true <;>
        by_cases hex : (env.pathExists && env.isDir && env.hasDotGit) =
            true <;>
          simp [processRepo, hex, h2, hc, hp]

/-- The loop body never emits the global pull configuration command. -/
theorem configFF_count_syncLoop (rs : List (Str × Str × RepoEnv)) :
    (syncLoop rs).1.count Event.configPullFF = 0 := by
  induction rs with
  | nil => rfl
  | cons x xs ih =>
    obtain ⟨n, u, env⟩ := x
    have h := configFF_not_in_processRepo n u env
    by_cases hp : (processRepo n u env).2 = true
    · simp [syncLoop, hp, List.count_append, ih, List.count_eq_zero.mpr h]
    · simp only [Bool.not_eq_true] at hp
      simp [syncLoop, hp, List.count_eq_zero.mpr h]

/-- C8: in every run of the sync engine, the fast-forward-only pull
configuration command appears exactly once in the trace, and it is the
very first command, before any repository is processed. -/
theorem claim_C8_config_once_first (rs : List (Str × Str × RepoEnv)) :
    (clone_or_update_repos rs).1.head? = some Event.configPullFF ∧
    (clone_or_update_repos rs).1.count Event.configPullFF = 1 := by
  refine ⟨rfl, ?_⟩
  simp [clone_or_update_repos, List.count_cons, configFF_count_syncLoop]

/-- A well-formed listing line strips to itself: its first and last
characters are not whitespace. -/
theorem pystrip_pairLine (n u : Str) (hn : n ≠ []) (hu : u ≠ [])
    (hnw : ∀ c ∈ n, c.isWhitespace = false)
    (huw : ∀ c ∈ u, c.isWhitespace = false) :
    pystrip (n ++ ' ' :: u) = n ++ ' ' :: u := by
  apply pystrip_eq_self
  · intro c hc
    cases n with
    | nil => exact absurd rfl hn
    | cons a as =>
      simp only [List.cons_append, List.head?_cons, Option.mem_def,
        Option.some.injEq] at hc
      subst hc
      exact hnw a (List.mem_cons_self a as)
  · intro c hc
    rw [List.getLast?_append_of_ne_nil n (by simp)] at hc
    rw [show (' ' :: u : Str) = [' '] ++ u from rfl,
      List.getLast?_append_of_ne_nil [' '] hu] at hc
    exact huw c (mem_of_mem_getLast u c hc)

/-- C5: a listing output of N well-formed "name url" lines parses into
exactly N two-word records in the same order; an empty listing output
parses to the empty list and main still finishes with exit status 0. -/
theorem claim_C5_listing_parse (pairs : List (Str × Str)) (raw : Str)
    (envs : List RepoEnv)
    (hwf : ∀ p ∈ pairs, p.1 ≠ [] ∧ p.2 ≠ [] ∧
      (∀ c ∈ p.1, c.isWhitespace = false) ∧
      (∀ c ∈ p.2, c.isWhitespace = false))
    (hraw : pystrip raw =
      joinNl (pairs.map (fun p => p.1 ++ ' ' :: p.2))) :
    fetch_repos raw = pairs.map (fun p => [p.1, p.2]) ∧
    (fetch_repos raw).length = pairs.length ∧
    fetch_repos [] = [] ∧ main_model [] envs = true := by
  have hempty : fetch_repos ([] : Str) = [] := rfl
  have hmain : main_model [] envs = true := rfl
  cases pairs with
  | nil =>
    have h0 : pystrip raw = [] := by simpa [joinNl] using hraw
    exact ⟨by simp [fetch_repos, h0], by simp [fetch_repos, h0], hempty,
      hmain⟩
  | cons p ps =>
    have hnn : ∀ l ∈ (p :: ps).map (fun q => q.1 ++ ' ' :: q.2),
        '\n' ∉ l := by
      intro l hl
      obtain ⟨q, hq, rfl⟩ := List.mem_map.mp hl
      obtain ⟨hq1, hq2, hq3, hq4⟩ := hwf q hq
      intro hmem
      rcases List.mem_append.mp hmem with h | h
      · exact absurd (hq3 _ h) (by decide)
      · rcases List.mem_cons.mp h with he | h2
        · exact absurd he (by decide)
        · exact absurd (hq4 _ h2) (by decide)
    have hline : (p.1 ++ ' ' :: p.2 : Str) ≠ [] := by simp
    have hne : joinNl ((p :: ps).map (fun q => q.1 ++ ' ' :: q.2)) ≠ [] := by
      rw [List.map_cons]
      exact joinNl_ne_nil _ _ hline
    have hie : (joinNl ((p :: ps).map
        (fun q => q.1 ++ ' ' :: q.2))).isEmpty = false := by
      cases hjl : joinNl ((p :: ps).map (fun q => q.1 ++ ' ' :: q.2)) with
      | nil => exact absurd hjl hne
      | cons a l => rfl
    have hmaineq : fetch_repos raw = (p :: ps).map (fun q => [q.1, q.2]) := by
      unfold fetch_repos
      rw [hraw, hie]
      simp only [Bool.false_eq_true, if_false]
      rw [splitOnNl_joinNl _ (by simp) hnn]
      rw [List.map_map]
      apply List.map_congr_left
      intro q hq
      obtain ⟨hq1, hq2, hq3, hq4⟩ := hwf q hq
      show pysplit (pystrip (q.1 ++ ' ' :: q.2)) = [q.1, q.2]
      rw [pystrip_pairLine _ _ hq1 hq2 hq3 hq4]
      exact pysplit_pair _ _ hq1 hq2 hq3 hq4
    refine ⟨hmaineq, ?_, hempty, hmain⟩
    rw [hmaineq]
    simp

/-- C5 witness: a concrete two-line listing parses to the two records in
order, and the empty listing leaves the run with exit status 0. -/
theorem claim_C5_listing_parse_witness :
    fetch_repos
        "dotfiles git@github.com:u/dotfiles.git\nnew-repo git@github.com:u/new-repo.git".toList =
      [("dotfiles".toList, "git@github.com:u/dotfiles.git".toList),
       ("new-repo".toList, "git@github.com:u/new-repo.git".toList)].map
        (fun p => [p.1, p.2]) ∧
    (fetch_repos
        "dotfiles git@github.com:u/dotfiles.git\nnew-repo git@github.com:u/new-repo.git".toList).length =
      [("dotfiles".toList, "git@github.com:u/dotfiles.git".toList),
       ("new-repo".toList, "git@github.com:u/new-repo.git".toList)].length ∧
    fetch_repos [] = [] ∧ main_model [] [] = true :=
  claim_C5_listing_parse
    [("dotfiles".toList, "git@github.com:u/dotfiles.git".toList),
     ("new-repo".toList, "git@github.com:u/new-repo.git".toList)]
    "dotfiles git@github.com:u/dotfiles.git\nnew-repo git@github.com:u/new-repo.git".toList
    [] (by decide) (by decide)
